import Mathlib

/-!
Verification of the TerraFirma world-file decoder (`src/world.cpp`).

The byte stream is modelled as a `List Nat` of byte values; the binary
reader `Handle` (declared in a header that is not part of the sources)
is modelled from the spec, §4.1: little-endian fixed-width reads and a
7-bit variable-length string length prefix.  Reading past the end of the
stream is modelled as `none`.  All other definitions are direct
translations of the corresponding functions of `src/world.cpp`.
-/

namespace TerraFirma

/-- Modelled from the spec: `r8` reads one unsigned byte; reading past
the end of the stream fails. -/
def r8 (s : List Nat) : Option (Nat × List Nat) :=
  match s with
  | [] => none
  | b :: t => some (b % 256, t)

/-- Little-endian unsigned 16-bit read (two `r8` reads). -/
def r16n (s : List Nat) : Option (Nat × List Nat) :=
  match r8 s with
  | none => none
  | some (b0, s1) =>
    match r8 s1 with
    | none => none
    | some (b1, s2) => some (b0 + 256 * b1, s2)

/-- Two's-complement reading of a 16-bit word. -/
def toI16 (n : Nat) : Int := if n < 32768 then (n : Int) else (n : Int) - 65536

/-- Modelled from the spec: `r16` returns a signed little-endian 16-bit
integer. -/
def r16 (s : List Nat) : Option (Int × List Nat) :=
  match r16n s with
  | none => none
  | some (n, s1) => some (toI16 n, s1)

/-- Little-endian unsigned 32-bit read (four `r8` reads). -/
def r32n (s : List Nat) : Option (Nat × List Nat) :=
  match r16n s with
  | none => none
  | some (lo, s1) =>
    match r16n s1 with
    | none => none
    | some (hi, s2) => some (lo + 65536 * hi, s2)

/-- Two's-complement reading of a 32-bit word. -/
def toI32 (n : Nat) : Int :=
  if n < 2147483648 then (n : Int) else (n : Int) - 4294967296

/-- Modelled from the spec: `r32` returns a signed little-endian 32-bit
integer. -/
def r32 (s : List Nat) : Option (Int × List Nat) :=
  match r32n s with
  | none => none
  | some (n, s1) => some (toI32 n, s1)

/-- Skip `n` bytes of the stream; fails when fewer are left. -/
def skipBytes (n : Nat) (s : List Nat) : Option (List Nat) :=
  if n ≤ s.length then some (s.drop n) else none

/-- Read `n` raw bytes of the stream. -/
def takeBytes (n : Nat) (s : List Nat) : Option (List Nat × List Nat) :=
  if n ≤ s.length then some (s.take n, s.drop n) else none

/-- Modelled from the spec: the 7-bit continuation (LEB128) length
prefix of `rs`, at most five bytes. -/
def readLEB : Nat → List Nat → Option (Nat × List Nat)
  | 0, _ => none
  | k + 1, s =>
    match r8 s with
    | none => none
    | some (b, s1) =>
      if b &&& 0x80 ≠ 0 then
        match readLEB k s1 with
        | none => none
        | some (v, s2) => some ((b &&& 0x7F) + (v <<< 7), s2)
      else
        some (b &&& 0x7F, s1)

/-- Modelled from the spec: `rs` reads a LEB128 length prefix and then
that many bytes.  The character content never matters to the claims, so
the string is kept as its raw bytes. -/
def rs (s : List Nat) : Option (List Nat × List Nat) :=
  match readLEB 5 s with
  | none => none
  | some (n, s1) => takeBytes n s1

/-- One world tile, translated from the `Tile` record of the source.
Fields the source leaves unassigned on some paths (an uninitialized
member of `new Tile[]`) are given the fixed defaults `0` / `-1` here;
no claim depends on their values on those paths. -/
structure Tile where
  type : Nat
  wall : Nat
  u : Int
  v : Int
  wallu : Int
  wallv : Int
  color : Nat
  wallColor : Nat
  liquid : Nat
  slope : Nat
  flags : Nat
deriving DecidableEq, Repr

/-- Source accessor `Tile::active`: `flags & 1`. -/
def Tile.active (t : Tile) : Bool := t.flags &&& 1 ≠ 0

/-- Source accessor `Tile::lava`: `flags & 2`. -/
def Tile.lava (t : Tile) : Bool := t.flags &&& 2 ≠ 0

/-- Source accessor `Tile::honey`: `flags & 4`. -/
def Tile.honey (t : Tile) : Bool := t.flags &&& 4 ≠ 0

/-- Source accessor `Tile::seen`: `flags & 0x200`. -/
def Tile.seen (t : Tile) : Bool := t.flags &&& 0x200 ≠ 0

/-- Source `Tile::setSeen`: sets or clears flag bit `0x200` only.  The
`flags` member is a machine integer; `flags &= ~0x200` is rendered on
`Nat` as a conjunction with the 32-bit complement of `0x200`. -/
def Tile.setSeen (seenVal : Bool) (t : Tile) : Tile :=
  if seenVal then { t with flags := t.flags ||| 0x200 }
  else { t with flags := t.flags &&& 0xFFFFFDFF }

/-- Reading of the one to three flag bytes at the head of a tile record
(`Tile::load`, first lines): `flags2` is present when bit 0 of `flags1`
is set, `flags3` when bit 0 of `flags2` is set; absent bytes are zero. -/
def readFlagsBytes (s : List Nat) : Option (Nat × Nat × Nat × List Nat) :=
  match r8 s with
  | none => none
  | some (f1, s1) =>
    if f1 &&& 1 ≠ 0 then
      match r8 s1 with
      | none => none
      | some (f2, s2) =>
        if f2 &&& 1 ≠ 0 then
          match r8 s2 with
          | none => none
          | some (f3, s3) => some (f1, f2, f3, s3)
        else some (f1, f2, 0, s2)
    else some (f1, 0, 0, s1)

/-- The packed `flags` word built by `Tile::load`, in source order:
active, then lava / honey / shimmer inside the liquid block, then the
wires, half, actuator, inactive and yellow-wire bits.  The flag updates
of the source interleave with byte reads, but no read feeds back into
them, so they are collected here as one pure function of the three flag
bytes. -/
def mkFlags (f1 f2 f3 : Nat) : Nat :=
  let fl : Nat := if f1 &&& 2 ≠ 0 then 1 else 0
  let fl : Nat :=
    if f1 &&& 0x18 ≠ 0 then
      let fl := if f1 &&& 0x18 = 0x10 then fl ||| 2 else fl
      let fl := if f1 &&& 0x18 = 0x18 then fl ||| 4 else fl
      if f3 &&& 0x80 ≠ 0 then fl ||| 0x800 else fl
    else fl
  let fl : Nat := if f2 &&& 2 ≠ 0 then fl ||| 8 else fl
  let fl : Nat := if f2 &&& 4 ≠ 0 then fl ||| 0x10 else fl
  let fl : Nat := if f2 &&& 8 ≠ 0 then fl ||| 0x20 else fl
  let fl : Nat := if (f2 >>> 4) &&& 7 = 1 then fl ||| 0x40 else fl
  let fl : Nat := if f3 &&& 2 ≠ 0 then fl ||| 0x80 else fl
  let fl : Nat := if f3 &&& 4 ≠ 0 then fl ||| 0x100 else fl
  let fl : Nat := if f3 &&& 32 ≠ 0 then fl ||| 0x400 else fl
  fl

/-- `slope` as computed by `Tile::load`: `slop = (f2 >> 4) & 7`, kept as
`slop - 1` when above one, else zero. -/
def mkSlope (f2 : Nat) : Nat :=
  let slop := (f2 >>> 4) &&& 7
  if slop > 1 then slop - 1 else 0

/-- The active-branch reads of `Tile::load`: type byte, optional high
type byte (bit 5 of `flags1`), then `u`/`v` when the extra-data bitmap
is set for the type, then the color byte (bit 3 of `flags3`).  Returns
`(type, u, v, color, rest)`. -/
def readTypePart (f1 f3 : Nat) (extra : List Bool) (s : List Nat) :
    Option (Nat × Int × Int × Nat × List Nat) :=
  if f1 &&& 2 ≠ 0 then
    match r8 s with
    | none => none
    | some (tlo, s1) =>
      match
        (if f1 &&& 0x20 ≠ 0 then
          match r8 s1 with
          | none => none
          | some (thi, s2) => some (tlo ||| (thi <<< 8), s2)
        else some (tlo, s1)) with
      | none => none
      | some (ty, s2) =>
        match
          (if extra.getD ty false then
            match r16 s2 with
            | none => none
            | some (uVal, s3) =>
              match r16 s3 with
              | none => none
              | some (vVal, s4) => some (uVal, vVal, s4)
          else some (-1, -1, s2)) with
        | none => none
        | some (uVal, vVal, s3) =>
          if f3 &&& 8 ≠ 0 then
            match r8 s3 with
            | none => none
            | some (c, s4) => some (ty, uVal, vVal, c, s4)
          else some (ty, uVal, vVal, 0, s3)
  else
    some (0, -1, -1, 0, s)

/-- The wall reads of `Tile::load` (bit 2 of `flags1`): wall byte and
optional wall color (bit 4 of `flags3`).  Returns
`(wall, wallColor, wallu, wallv, rest)`. -/
def readWallPart (f1 f3 : Nat) (s : List Nat) :
    Option (Nat × Nat × Int × Int × List Nat) :=
  if f1 &&& 4 ≠ 0 then
    match r8 s with
    | none => none
    | some (w, s1) =>
      if f3 &&& 0x10 ≠ 0 then
        match r8 s1 with
        | none => none
        | some (wc, s2) => some (w, wc, -1, -1, s2)
      else some (w, 0, -1, -1, s1)
  else
    some (0, 0, -1, -1, s)

/-- The liquid read of `Tile::load` (bits 3–4 of `flags1`). -/
def readLiquidPart (f1 : Nat) (s : List Nat) : Option (Nat × List Nat) :=
  if f1 &&& 0x18 ≠ 0 then r8 s else some (0, s)

/-- The high wall byte of `Tile::load` (bit 6 of `flags3`): shifted into
the high byte of `wall`. -/
def readWallHigh (f3 wall0 : Nat) (s : List Nat) : Option (Nat × List Nat) :=
  if f3 &&& 64 ≠ 0 then
    match r8 s with
    | none => none
    | some (b, s1) => some (wall0 ||| (b <<< 8), s1)
  else some (wall0, s)

/-- The RLE tail of `Tile::load`: selector `flags1 >> 6`; `1` reads one
byte, `2` reads a signed 16-bit word, anything else yields zero. -/
def readRLE (f1 : Nat) (s : List Nat) : Option (Int × List Nat) :=
  match f1 >>> 6 with
  | 1 =>
    match r8 s with
    | none => none
    | some (b, s1) => some ((b : Int), s1)
  | 2 => r16 s
  | _ => some (0, s)

/-- `Tile::load`: decode one tile record and return the tile, the RLE
run length and the rest of the stream. -/
def Tile.load (s : List Nat) (extra : List Bool) :
    Option (Tile × Int × List Nat) :=
  match readFlagsBytes s with
  | none => none
  | some (f1, f2, f3, s1) =>
    match readTypePart f1 f3 extra s1 with
    | none => none
    | some (ty, uVal, vVal, colorVal, s2) =>
      match readWallPart f1 f3 s2 with
      | none => none
      | some (wall0, wallColorVal, wu, wv, s3) =>
        match readLiquidPart f1 s3 with
        | none => none
        | some (liquidVal, s4) =>
          match readWallHigh f3 wall0 s4 with
          | none => none
          | some (wallVal, s5) =>
            match readRLE f1 s5 with
            | none => none
            | some (rle, s6) =>
              some ({ type := ty, wall := wallVal, u := uVal, v := vVal,
                      wallu := wu, wallv := wv, color := colorVal,
                      wallColor := wallColorVal, liquid := liquidVal,
                      slope := mkSlope f2, flags := mkFlags f1 f2 f3 },
                    rle, s6)

/-- The bit-packed bitmap loop of `World::run` (lines 80–91) and of
`World::loadPlayer2` (lines 534–558): the walking `mask` starts at the
sentinel `0x80`; when it equals `0x80` a fresh byte is read and the mask
resets to `1`, otherwise the mask is shifted left; the appended bit is
`bits & mask`. -/
def readBitmapAux : Nat → List Nat → Nat → Nat → Option (List Bool × List Nat)
  | 0, s, _, _ => some ([], s)
  | n + 1, s, mask, bits =>
    if mask = 0x80 then
      match r8 s with
      | none => none
      | some (b, s1) =>
        match readBitmapAux n s1 1 b with
        | none => none
        | some (rest, s2) => some ((decide (b &&& 1 ≠ 0)) :: rest, s2)
    else
      let mask1 := (mask <<< 1) % 256
      match readBitmapAux n s mask1 bits with
      | none => none
      | some (rest, s2) => some ((decide (bits &&& mask1 ≠ 0)) :: rest, s2)

/-- A bit-packed bitmap of `n` bits, as decoded by the source. -/
def readBitmap (n : Nat) (s : List Nat) : Option (List Bool × List Nat) :=
  readBitmapAux n s 0x80 0

/-- Spec-side decoding convention of claim C1: bit `i` is MSB-first
within each byte, the first bit of a byte living at mask `0x80`. -/
def specBitMSB (bytes : List Nat) (i : Nat) : Bool :=
  decide ((bytes.getD (i / 8) 0) &&& (0x80 >>> (i % 8)) ≠ 0)

/-- The errors `World::run` can emit before the section table. -/
inductive RunError where
  | unsupportedVersion (v : Int)
  | versionTooOld (v : Int)
  | notARelogicMap
  | notAMapFile
  | eof
deriving DecidableEq, Repr

/-- The ASCII bytes of `"relogic"`. -/
def relogicMagic : List Nat := [114, 101, 108, 111, 103, 105, 99]

/-- Reads `count` little-endian 32-bit section offsets
(`World::run`, lines 76–78). -/
def readSections : Nat → List Nat → Option (List Int × List Nat)
  | 0, s => some ([], s)
  | n + 1, s =>
    match r32 s with
    | none => none
    | some (v, s1) =>
      match readSections n s1 with
      | none => none
      | some (rest, s2) => some (v :: rest, s2)

/-- The prologue of `World::run` (lines 52–91): version word and its two
range checks, the `relogic` magic and file-type byte for `version ≥
135`, the section-offset table, and the per-tile-type extra-data bitmap.
An error carries the part of the stream that was never consumed. -/
def runPrologue (highestVersion minimumVersion : Int) (s : List Nat) :
    Except (RunError × List Nat) (Int × List Int × List Bool × List Nat) :=
  match r32 s with
  | none => .error (.eof, s)
  | some (version, s1) =>
    if version > highestVersion then .error (.unsupportedVersion version, s1)
    else if version < minimumVersion then .error (.versionTooOld version, s1)
    else
      match
        ((if version ≥ 135 then
          match takeBytes 7 s1 with
          | none => .error (RunError.eof, s1)
          | some (magic, s2) =>
            if magic ≠ relogicMagic then .error (.notARelogicMap, s2)
            else
              match r8 s2 with
              | none => .error (.eof, s2)
              | some (ty, s3) =>
                if ty ≠ 2 then .error (.notAMapFile, s3)
                else
                  match skipBytes (4 + 8) s3 with
                  | none => .error (.eof, s3)
                  | some s4 => .ok s4
        else .ok s1) : Except (RunError × List Nat) (List Nat)) with
      | .error e => .error e
      | .ok s2 =>
        match r16 s2 with
        | none => .error (.eof, s2)
        | some (numSections, s3) =>
          match readSections numSections.toNat s3 with
          | none => .error (.eof, s3)
          | some (sections, s4) =>
            match r16 s4 with
            | none => .error (.eof, s4)
            | some (numTiles, s5) =>
              match readBitmap numTiles.toNat s5 with
              | none => .error (.eof, s5)
              | some (extra, s6) => .ok (version, sections, extra, s6)

/-- A tile grid, addressed by flat offset `y * tilesWide + x`.  The
source array is a raw allocation that the decoders index without bounds
checks, so the model keeps the whole address space. -/
def Grid := Nat → Tile

/-- Writing one cell of the grid. -/
def gridWrite (g : Grid) (o : Nat) (t : Tile) : Grid :=
  fun i => if i = o then t else g i

/-- The RLE copy loop of `World::loadTiles` (lines 152–154): `rle`
copies of the cell at `src`, one grid row apart, starting at
`src + tilesWide`; every copied-to offset is appended to the write
log. -/
def rleCopy (wide : Nat) : Nat → Grid → List Nat → Nat → Nat →
    (Grid × List Nat × Nat)
  | 0, g, w, _, dest => (g, w, dest)
  | k + 1, g, w, src, dest =>
      rleCopy wide k (gridWrite g dest (g src)) (w ++ [dest]) src (dest + wide)

/-- The inner column loop of `World::loadTiles` (lines 149–157): while
`y < tilesHigh`, decode a tile at `offset`, copy it `rle` rows down, and
advance `y` by `rle + 1`.  `y` is a machine `int` in the source, kept
as `Int` here; `fuel` bounds the number of iterations and its
exhaustion is reported as `none`. -/
def loadTilesInner (wide high : Nat) (extra : List Bool) :
    Nat → Int → Nat → Grid → List Nat → List Nat →
    Option (Grid × List Nat × List Nat)
  | 0, _, _, _, _, _ => none
  | fuel + 1, y, offset, g, w, s =>
    if y < (high : Int) then
      match Tile.load s extra with
      | none => none
      | some (t, rle, s1) =>
        let g1 := gridWrite g offset t
        let w1 := w ++ [offset]
        let c := rleCopy wide rle.toNat g1 w1 offset (offset + wide)
        loadTilesInner wide high extra fuel (y + rle + 1) c.2.2 c.1 c.2.1 s1
    else some (g, w, s)

/-- The outer column loop of `World::loadTiles` (lines 145–158):
`cols` counts the remaining columns, `x` the current one. -/
def loadTilesCols (wide high : Nat) (extra : List Bool) (fuel : Nat) :
    Nat → Nat → Grid → List Nat → List Nat →
    Option (Grid × List Nat × List Nat)
  | 0, _, g, w, s => some (g, w, s)
  | cols + 1, x, g, w, s =>
    match loadTilesInner wide high extra fuel 0 x g w s with
    | none => none
    | some (g1, w1, s1) => loadTilesCols wide high extra fuel cols (x + 1) g1 w1 s1

/-- `World::loadTiles`: all columns, starting from column zero, with a
log of every offset written (direct decode or RLE copy). -/
def loadTiles (wide high : Nat) (extra : List Bool) (fuel : Nat)
    (g : Grid) (s : List Nat) : Option (Grid × List Nat × List Nat) :=
  loadTilesCols wide high extra fuel wide 0 g [] s

/-- One chest item as built by `World::loadChests`: the stack count and
the looked-up item and prefix display strings (field `pfx` renders the
source's prefix member). -/
structure ChestItem where
  stack : Int
  name : String
  pfx : String
deriving DecidableEq, Repr

/-- One chest (`Chest` record of the source); the name is kept as the
raw bytes `rs` returned. -/
structure Chest where
  x : Int
  y : Int
  name : List Nat
  items : List ChestItem
deriving DecidableEq, Repr

/-- The item-slot loop of `World::loadChests` (lines 171–180): for each
of the `itemsPerChest` slots read a signed 16-bit stack; when it is
positive read the item id and prefix id and append the looked-up item,
otherwise read nothing more.  `items` and `prefixes` model the InfoDB
lookups (a collaborator outside this file, spec §6). -/
def readChestItems (items : Int → String) (prefixes : Nat → String) :
    Nat → List Nat → Option (List ChestItem × List Nat)
  | 0, s => some ([], s)
  | j + 1, s =>
    match r16 s with
    | none => none
    | some (stack, s1) =>
      if stack > 0 then
        match r32 s1 with
        | none => none
        | some (id, s2) =>
          match r8 s2 with
          | none => none
          | some (pid, s3) =>
            match readChestItems items prefixes j s3 with
            | none => none
            | some (rest, s4) =>
              some ({ stack := stack, name := items id, pfx := prefixes pid } :: rest, s4)
      else
        readChestItems items prefixes j s1

/-- The per-chest reads of `World::loadChests` (lines 167–181):
coordinates, name, then the item slots. -/
def readChest (items : Int → String) (prefixes : Nat → String)
    (itemsPerChest : Nat) (s : List Nat) : Option (Chest × List Nat) :=
  match r32 s with
  | none => none
  | some (x, s1) =>
    match r32 s1 with
    | none => none
    | some (y, s2) =>
      match rs s2 with
      | none => none
      | some (nm, s3) =>
        match readChestItems items prefixes itemsPerChest s3 with
        | none => none
        | some (its, s4) => some ({ x := x, y := y, name := nm, items := its }, s4)

/-- The chest-list loop of `World::loadChests`. -/
def readChests (items : Int → String) (prefixes : Nat → String)
    (itemsPerChest : Nat) : Nat → List Nat → Option (List Chest × List Nat)
  | 0, s => some ([], s)
  | n + 1, s =>
    match readChest items prefixes itemsPerChest s with
    | none => none
    | some (c, s1) =>
      match readChests items prefixes itemsPerChest n s1 with
      | none => none
      | some (rest, s2) => some (c :: rest, s2)

/-- `World::loadChests` (lines 161–183): chest count, items per chest,
then the chests. -/
def loadChests (items : Int → String) (prefixes : Nat → String)
    (s : List Nat) : Option (List Chest × List Nat) :=
  match r16 s with
  | none => none
  | some (numChests, s1) =>
    match r16 s1 with
    | none => none
    | some (itemsPerChest, s2) =>
      readChests items prefixes itemsPerChest.toNat numChests.toNat s2

/-- The tagged entity variants built by `World::loadEntities`. -/
inductive Entity where
  | dummy (id : Int) (x y : Int) (npc : Int)
  | frame (id : Int) (x y : Int) (itemid : Int) (pfx : Nat) (stack : Int)
  | sensor (id : Int) (x y : Int) (ty : Nat)  (isOn : Bool)
deriving DecidableEq, Repr

/-- The record loop of `World::loadEntities` (lines 275–308): each
record begins with a kind byte; kinds 0, 1, 2 read their fields and
append; any other kind reads nothing further and the loop silently
continues with the next record (the `switch` has no other case). -/
def loadEntitiesLoop : Nat → List Entity → List Nat →
    Option (List Entity × List Nat)
  | 0, acc, s => some (acc.reverse, s)
  | n + 1, acc, s =>
    match r8 s with
    | none => none
    | some (kind, s1) =>
      match kind with
      | 0 =>
        match r32 s1 with
        | none => none
        | some (id, s2) =>
          match r16 s2 with
          | none => none
          | some (x, s3) =>
            match r16 s3 with
            | none => none
            | some (y, s4) =>
              match r16 s4 with
              | none => none
              | some (npc, s5) =>
                loadEntitiesLoop n (Entity.dummy id x y npc :: acc) s5
      | 1 =>
        match r32 s1 with
        | none => none
        | some (id, s2) =>
          match r16 s2 with
          | none => none
          | some (x, s3) =>
            match r16 s3 with
            | none => none
            | some (y, s4) =>
              match r16 s4 with
              | none => none
              | some (itemid, s5) =>
                match r8 s5 with
                | none => none
                | some (pid, s6) =>
                  match r16 s6 with
                  | none => none
                  | some (stack, s7) =>
                    loadEntitiesLoop n (Entity.frame id x y itemid pid stack :: acc) s7
      | 2 =>
        match r32 s1 with
        | none => none
        | some (id, s2) =>
          match r16 s2 with
          | none => none
          | some (x, s3) =>
            match r16 s3 with
            | none => none
            | some (y, s4) =>
              match r8 s4 with
              | none => none
              | some (ty, s5) =>
                match r8 s5 with
                | none => none
                | some (onB, s6) =>
                  loadEntitiesLoop n (Entity.sensor id x y ty (onB ≠ 0) :: acc) s6
      | _ => loadEntitiesLoop n acc s1

/-- `World::loadEntities` (lines 272–309): entity count then the record
loop. -/
def loadEntities (s : List Nat) : Option (List Entity × List Nat) :=
  match r32 s with
  | none => none
  | some (num, s1) => loadEntitiesLoop num.toNat [] s1

/-- Terminal state of the player-map overlay: `ok` is a normal return,
`errored` a `loadError` emission, `eof` a read past the end of the map
file.  The grid at the moment of stopping is kept in every case. -/
inductive PStatus where
  | ok
  | errored
  | eof
deriving DecidableEq, Repr

/-- Result of a player-map decoding step: the tile grid, the unread
stream and the terminal status. -/
structure PRes where
  grid : Grid
  stream : List Nat
  status : PStatus

/-- `tiles[o].setSeen(b)` on the grid. -/
def gridSetSeen (o : Nat) (b : Bool) (g : Grid) : Grid :=
  fun i => if i = o then Tile.setSeen b (g i) else g i

/-- The missing-file fallback of `World::loadPlayer` (lines 456–464):
every offset of the `tilesHigh * tilesWide` grid gets `setSeen(true)`. -/
def markAllSeen (wide high : Nat) (g : Grid) : Grid :=
  (List.range (high * wide)).foldl (fun acc o => gridSetSeen o true acc) g

/-- The RLE advance loops of `World::loadPlayer1` (lines 492–495 and
498–501): `k` times, advance one row and set or clear `seen` at the new
offset.  Returns the final `y`, `offset` and grid. -/
def seenRunRows (wide : Nat) (b : Bool) :
    Nat → Int → Nat → Grid → (Int × Nat × Grid)
  | 0, y, offset, g => (y, offset, g)
  | k + 1, y, offset, g =>
      seenRunRows wide b k (y + 1) (offset + wide)
        (gridSetSeen (offset + wide) b g)

/-- The inner column loop of `World::loadPlayer1` (lines 481–503): while
`y < tilesHigh`, read a presence byte; when set, skip the tile id (one
byte for `version ≤ 77`, two after), the light and misc bytes (plus a
second misc byte for `version ≥ 50`), set `seen` here, and run the RLE
advance setting `seen`; when clear, run the RLE advance clearing `seen`
without touching the current cell.  `fuel` bounds the iterations; on
exhaustion the loop stops with the current state. -/
def lp1Inner (wide high : Nat) (version : Int) :
    Nat → Int → Nat → Grid → List Nat → PRes
  | 0, _, _, g, s => ⟨g, s, .ok⟩
  | fuel + 1, y, offset, g, s =>
    if y < (high : Int) then
      match r8 s with
      | none => ⟨g, s, .eof⟩
      | some (p, s1) =>
        if p ≠ 0 then
          match skipBytes (if version ≤ 77 then 1 else 2) s1 with
          | none => ⟨g, s1, .eof⟩
          | some s2 =>
            match skipBytes (if version ≥ 50 then 3 else 2) s2 with
            | none => ⟨g, s2, .eof⟩
            | some s3 =>
              let g1 := gridSetSeen offset true g
              match r16 s3 with
              | none => ⟨g1, s3, .eof⟩
              | some (rle, s4) =>
                let st := seenRunRows wide true rle.toNat y offset g1
                lp1Inner wide high version fuel (st.1 + 1)
                  (st.2.1 + wide) st.2.2 s4
        else
          match r16 s1 with
          | none => ⟨g, s1, .eof⟩
          | some (rle, s2) =>
            let st := seenRunRows wide false rle.toNat y offset g
            lp1Inner wide high version fuel (st.1 + 1) (st.2.1 + wide) st.2.2 s2
    else ⟨g, s, .ok⟩

/-- The outer column loop of `World::loadPlayer1` (lines 479–504). -/
def lp1Cols (wide high : Nat) (version : Int) (fuel : Nat) :
    Nat → Nat → Grid → List Nat → PRes
  | 0, _, g, s => ⟨g, s, .ok⟩
  | cols + 1, x, g, s =>
    match lp1Inner wide high version fuel 0 x g s with
    | ⟨g1, s1, .ok⟩ => lp1Cols wide high version fuel cols (x + 1) g1 s1
    | r => r

/-- `World::loadPlayer1` (lines 474–505): skip name, id, and the stored
dimensions, then the column loops. -/
def loadPlayer1 (wide high : Nat) (version : Int) (fuel : Nat)
    (g : Grid) (s : List Nat) : PRes :=
  match rs s with
  | none => ⟨g, s, .eof⟩
  | some (_, s1) =>
    match r32 s1 with
    | none => ⟨g, s1, .eof⟩
    | some (_, s2) =>
      match r32 s2 with
      | none => ⟨g, s2, .eof⟩
      | some (_, s3) =>
        match r32 s3 with
        | none => ⟨g, s3, .eof⟩
        | some (_, s4) => lp1Cols wide high version fuel wide 0 g s4

/-- The run loops of the v2 seen-map body (lines 614–631): `k` times,
advance one cell; when `withLight` is set a light byte is consumed per
cell; `seen` is set or cleared at each advanced-to offset
(`tiles[++offset]`). -/
def seenRunCells (b : Bool) (withLight : Bool) :
    Nat → Nat → Nat → Grid → List Nat → Option (Nat × Nat × Grid × List Nat)
  | 0, x, offset, g, s => some (x, offset, g, s)
  | k + 1, x, offset, g, s =>
    if withLight then
      match r8 s with
      | none => none
      | some (_, s1) =>
        seenRunCells b withLight k (x + 1) (offset + 1)
          (gridSetSeen (offset + 1) b g) s1
    else
      seenRunCells b withLight k (x + 1) (offset + 1)
        (gridSetSeen (offset + 1) b g) s

/-- The inner row loop of the v2 seen-map body (lines 594–633): read the
cell flags; an optional color byte (bit 0); a tile id of one or two
bytes when the tile kind is 1, 2 or 7 (two when bit 4); an optional
light byte (bit 5, else 255); an RLE count selected by bits 6–7; then
set `seen` on this cell and the run when the kind is nonzero, clear them
otherwise.  A light byte is consumed per run cell iff the original light
was not 255. -/
def lp2Inner : Nat → Nat → Nat → Nat → Grid → List Nat → PRes × Nat
  | 0, _, _, offset, g, s => (⟨g, s, .ok⟩, offset)
  | fuel + 1, wide, x, offset, g, s =>
    if x < wide then
      match r8 s with
      | none => (⟨g, s, .eof⟩, offset)
      | some (flagsB, s1) =>
        match (if flagsB &&& 1 ≠ 0 then (r8 s1).map Prod.snd else some s1) with
        | none => (⟨g, s1, .eof⟩, offset)
        | some s2 =>
          let tileKind := (flagsB >>> 1) &&& 7
          match
            (if tileKind = 1 ∨ tileKind = 2 ∨ tileKind = 7 then
              if flagsB &&& 16 ≠ 0 then (r16n s2).map Prod.snd
              else (r8 s2).map Prod.snd
            else some s2) with
          | none => (⟨g, s2, .eof⟩, offset)
          | some s3 =>
            match
              (if flagsB &&& 32 ≠ 0 then r8 s3 else some (255, s3)) with
            | none => (⟨g, s3, .eof⟩, offset)
            | some (light, s4) =>
              match
                (match (flagsB >>> 6) &&& 3 with
                 | 1 =>
                   match r8 s4 with
                   | none => none
                   | some (b, s5) => some ((b : Int), s5)
                 | 2 => r16 s4
                 | _ => some ((0 : Int), s4)) with
              | none => (⟨g, s4, .eof⟩, offset)
              | some (rle, s5) =>
                if tileKind ≠ 0 then
                  let g1 := gridSetSeen offset true g
                  match seenRunCells true (light ≠ 255) rle.toNat x offset g1 s5 with
                  | none => (⟨g1, s5, .eof⟩, offset)
                  | some (x1, off1, g2, s6) =>
                    lp2Inner fuel wide (x1 + 1) (off1 + 1) g2 s6
                else
                  let g1 := gridSetSeen offset false g
                  match seenRunCells false false rle.toNat x offset g1 s5 with
                  | none => (⟨g1, s5, .eof⟩, offset)
                  | some (x1, off1, g2, s6) =>
                    lp2Inner fuel wide (x1 + 1) (off1 + 1) g2 s6
    else (⟨g, s, .ok⟩, offset)

/-- The outer row loop of the v2 seen-map body (lines 592–634): `x`
restarts at zero each row, while `offset` carries over from wherever the
previous row's inner loop (and its RLE overruns) left it, as in the
source where both loops share one `offset` variable. -/
def lp2Rows (wide : Nat) (fuel : Nat) :
    Nat → Nat → Grid → List Nat → PRes
  | 0, _, g, s => ⟨g, s, .ok⟩
  | rows + 1, offset, g, s =>
    match lp2Inner fuel wide 0 offset g s with
    | (⟨g1, s1, .ok⟩, off1) => lp2Rows wide fuel rows off1 g1 s1
    | (r, _) => r

/-- `World::loadPlayer2` (lines 507–635): magic and file-type checks for
`version ≥ 135`; name, world id and stored dimensions; the tile and wall
counts and four reserved counts; the tile and wall presence bitmaps and
their per-set-bit metadata bytes; for `version ≥ 93` the remainder is a
raw DEFLATE stream, modelled by the abstract decompression `inflate`;
then the seen-map body. -/
def loadPlayer2 (wide high : Nat) (version : Int)
    (inflate : List Nat → List Nat) (fuel : Nat)
    (g : Grid) (s : List Nat) : PRes :=
  match
    ((if version ≥ 135 then
      match takeBytes 7 s with
      | none => .error (s, PStatus.eof)
      | some (magic, s1) =>
        if magic ≠ relogicMagic then .error (s1, .errored)
        else
          match r8 s1 with
          | none => .error (s1, .eof)
          | some (ty, s2) =>
            if ty ≠ 1 then .error (s2, .errored)
            else
              match skipBytes (4 + 8) s2 with
              | none => .error (s2, .eof)
              | some s3 => .ok s3
    else .ok s) : Except (List Nat × PStatus) (List Nat)) with
  | .error (s1, st) => ⟨g, s1, st⟩
  | .ok s1 =>
    match rs s1 with
    | none => ⟨g, s1, .eof⟩
    | some (_, s2) =>
      match r32 s2 with
      | none => ⟨g, s2, .eof⟩
      | some (_, s3) =>
        match r32 s3 with
        | none => ⟨g, s3, .eof⟩
        | some (_, s4) =>
          match r32 s4 with
          | none => ⟨g, s4, .eof⟩
          | some (_, s5) =>
            match r16 s5 with
            | none => ⟨g, s5, .eof⟩
            | some (numTiles, s6) =>
              match r16 s6 with
              | none => ⟨g, s6, .eof⟩
              | some (numWalls, s7) =>
                match skipBytes 8 s7 with
                | none => ⟨g, s7, .eof⟩
                | some s8 =>
                  match readBitmap numTiles.toNat s8 with
                  | none => ⟨g, s8, .eof⟩
                  | some (tilePresent, s9) =>
                    match readBitmap numWalls.toNat s9 with
                    | none => ⟨g, s9, .eof⟩
                    | some (wallPresent, s10) =>
                      match skipBytes (tilePresent.count true) s10 with
                      | none => ⟨g, s10, .eof⟩
                      | some s11 =>
                        match skipBytes (wallPresent.count true) s11 with
                        | none => ⟨g, s11, .eof⟩
                        | some s12 =>
                          let body := if version ≥ 93 then inflate s12 else s12
                          lp2Rows wide fuel high 0 g body

/-- `World::loadPlayer` (lines 416–472): companion-map lookup.  The two
`dir.exists` probes are modelled by the booleans `guidExists` (the
GUID-derived path, probed only when the header has a `guid`) and
`worldIdExists` (the world-id-derived fallback path).  When the chosen
path does not exist, every tile is marked seen and the overlay returns
normally; otherwise the map file `mapFile` is opened and dispatched on
its version word. -/
def loadPlayer (hasGuid guidExists worldIdExists : Bool) (wide high : Nat)
    (inflate : List Nat → List Nat) (fuel : Nat)
    (g : Grid) (mapFile : List Nat) : PRes :=
  if hasGuid && guidExists then
    match r32 mapFile with
    | none => ⟨g, mapFile, .eof⟩
    | some (version, s1) =>
      if version ≤ 91 then loadPlayer1 wide high version fuel g s1
      else loadPlayer2 wide high version inflate fuel g s1
  else if worldIdExists then
    match r32 mapFile with
    | none => ⟨g, mapFile, .eof⟩
    | some (version, s1) =>
      if version ≤ 91 then loadPlayer1 wide high version fuel g s1
      else loadPlayer2 wide high version inflate fuel g s1
  else
    ⟨markAllSeen wide high g, mapFile, .ok⟩

/-- The eight bits of one byte in the order the source's walking mask
produces them: least-significant bit first. -/
def byteBitsLSB (b : Nat) : List Bool :=
  [decide (b &&& 1 ≠ 0), decide (b &&& 2 ≠ 0), decide (b &&& 4 ≠ 0),
   decide (b &&& 8 ≠ 0), decide (b &&& 16 ≠ 0), decide (b &&& 32 ≠ 0),
   decide (b &&& 64 ≠ 0), decide (b &&& 128 ≠ 0)]

/-- A concrete all-zero tile, standing in for a grid cell before the
decoders touch it. -/
def zeroTile : Tile := ⟨0, 0, 0, 0, 0, 0, 0, 0, 0, 0, 0⟩

/-- A concrete initial grid for the closed demonstrations. -/
def zeroGrid : Grid := fun _ => zeroTile

/-- An abstract chest slot: the stack together with the item and prefix
ids that follow a positive stack on the wire. -/
structure SlotSpec where
  stack : Int
  itemId : Int
  prefixId : Nat
deriving DecidableEq, Repr

/-- Little-endian encoding of a 16-bit word. -/
def encodeU16 (n : Nat) : List Nat := [n % 256, n / 256 % 256]

/-- Little-endian two's-complement encoding of an `i16`. -/
def encodeI16 (v : Int) : List Nat := encodeU16 ((v % 65536).toNat)

/-- Little-endian encoding of a 32-bit word. -/
def encodeU32 (n : Nat) : List Nat :=
  encodeU16 (n % 65536) ++ encodeU16 (n / 65536 % 65536)

/-- Little-endian two's-complement encoding of an `i32`. -/
def encodeI32 (v : Int) : List Nat := encodeU32 ((v % 4294967296).toNat)

/-- Wire format of one chest slot: a positive stack is followed by the
item id and prefix id; any other stack is the bare stack word. -/
def encodeSlot (sl : SlotSpec) : List Nat :=
  if 0 < sl.stack then
    encodeI16 sl.stack ++ encodeI32 sl.itemId ++ [sl.prefixId]
  else encodeI16 sl.stack

/-- Wire format of a sequence of chest slots. -/
def encodeSlots : List SlotSpec → List Nat
  | [] => []
  | sl :: rest => encodeSlot sl ++ encodeSlots rest

/-- Two tiles agree on everything except possibly the `seen` flag: every
plain field is equal and every flag bit of the 32-bit flag word other
than bit 9 (`0x200`) is equal. -/
def agreeExceptSeen (t t1 : Tile) : Prop :=
  t1.type = t.type ∧ t1.wall = t.wall ∧ t1.u = t.u ∧ t1.v = t.v ∧
  t1.wallu = t.wallu ∧ t1.wallv = t.wallv ∧ t1.color = t.color ∧
  t1.wallColor = t.wallColor ∧ t1.liquid = t.liquid ∧ t1.slope = t.slope ∧
  ∀ i, i < 32 → i ≠ 9 → t1.flags.testBit i = t.flags.testBit i

/-- Pointwise `agreeExceptSeen` over whole grids. -/
def gridAgree (g g1 : Grid) : Prop := ∀ o, agreeExceptSeen (g o) (g1 o)

theorem or_and_eq (x k m : Nat) (h : k &&& m = 0) : (x ||| k) &&& m = x &&& m := by
  apply Nat.eq_of_testBit_eq
  intro i
  have hk : (k &&& m).testBit i = false := by simp [h]
  rw [Nat.testBit_and] at hk
  simp only [Nat.testBit_and, Nat.testBit_or]
  cases hx : x.testBit i <;> cases hkk : k.testBit i <;> cases hm : m.testBit i <;> simp_all

theorem mkFlags_and_one (f1 f2 f3 : Nat) :
    mkFlags f1 f2 f3 &&& 1 = if f1 &&& 2 ≠ 0 then 1 else 0 := by
  have h : ∀ k, k &&& 1 = 0 → ∀ x : Nat, (x ||| k) &&& 1 = x &&& 1 :=
    fun k hk x => or_and_eq x k 1 hk
  unfold mkFlags
  simp only [apply_ite (fun x : Nat => x &&& 1), h 2 (by decide), h 4 (by decide),
    h 0x800 (by decide), h 8 (by decide), h 0x10 (by decide), h 0x20 (by decide),
    h 0x40 (by decide), h 0x80 (by decide), h 0x100 (by decide), h 0x400 (by decide),
    ite_self]
  norm_num

theorem or_and_self_two (x : Nat) : (x ||| 2) &&& 2 = 2 := by
  apply Nat.eq_of_testBit_eq
  intro i
  simp only [Nat.testBit_and, Nat.testBit_or]
  cases hx : x.testBit i <;> simp

theorem or_and_self_four (x : Nat) : (x ||| 4) &&& 4 = 4 := by
  apply Nat.eq_of_testBit_eq
  intro i
  simp only [Nat.testBit_and, Nat.testBit_or]
  cases hx : x.testBit i <;> simp

theorem mkFlags_and_two (f1 f2 f3 : Nat) :
    mkFlags f1 f2 f3 &&& 2 = if f1 &&& 0x18 = 0x10 then 2 else 0 := by
  have h : ∀ k, k &&& 2 = 0 → ∀ x : Nat, (x ||| k) &&& 2 = x &&& 2 :=
    fun k hk x => or_and_eq x k 2 hk
  unfold mkFlags
  simp only [apply_ite (fun x : Nat => x &&& 2), h 4 (by decide),
    h 0x800 (by decide), h 8 (by decide), h 0x10 (by decide), h 0x20 (by decide),
    h 0x40 (by decide), h 0x80 (by decide), h 0x100 (by decide), h 0x400 (by decide),
    or_and_self_two, ite_self]
  repeat' split
  all_goals first | rfl | decide | omega

theorem mkFlags_and_four (f1 f2 f3 : Nat) :
    mkFlags f1 f2 f3 &&& 4 = if f1 &&& 0x18 = 0x18 then 4 else 0 := by
  have h : ∀ k, k &&& 4 = 0 → ∀ x : Nat, (x ||| k) &&& 4 = x &&& 4 :=
    fun k hk x => or_and_eq x k 4 hk
  unfold mkFlags
  simp only [apply_ite (fun x : Nat => x &&& 4), h 2 (by decide),
    h 0x800 (by decide), h 8 (by decide), h 0x10 (by decide), h 0x20 (by decide),
    h 0x40 (by decide), h 0x80 (by decide), h 0x100 (by decide), h 0x400 (by decide),
    or_and_self_four, ite_self]
  repeat' split
  all_goals first | rfl | decide | omega

theorem readTypePart_inactive (f1 f3 : Nat) (extra : List Bool) (s : List Nat)
    (h : f1 &&& 2 = 0) : readTypePart f1 f3 extra s = some (0, -1, -1, 0, s) := by
  unfold readTypePart
  simp [h]

theorem readLiquidPart_absent (f1 : Nat) (s : List Nat) (h : f1 &&& 0x18 = 0) :
    readLiquidPart f1 s = some (0, s) := by
  unfold readLiquidPart
  simp [h]

theorem load_inv (s : List Nat) (extra : List Bool) (t : Tile) (rle : Int)
    (rest : List Nat) (h : Tile.load s extra = some (t, rle, rest)) :
    ∃ f1 f2 f3 s1 ty uV vV cV s2 w0 wc wu wv s3 lq s4 wall2 s5,
      readFlagsBytes s = some (f1, f2, f3, s1) ∧
      readTypePart f1 f3 extra s1 = some (ty, uV, vV, cV, s2) ∧
      readWallPart f1 f3 s2 = some (w0, wc, wu, wv, s3) ∧
      readLiquidPart f1 s3 = some (lq, s4) ∧
      readWallHigh f3 w0 s4 = some (wall2, s5) ∧
      readRLE f1 s5 = some (rle, rest) ∧
      t = { type := ty, wall := wall2, u := uV, v := vV, wallu := wu, wallv := wv,
            color := cV, wallColor := wc, liquid := lq, slope := mkSlope f2,
            flags := mkFlags f1 f2 f3 } := by
  unfold Tile.load at h
  rcases hrf : readFlagsBytes s with _ | ⟨f1, f2, f3, s1⟩
  · simp [hrf] at h
  simp only [hrf] at h
  rcases htp : readTypePart f1 f3 extra s1 with _ | ⟨ty, uV, vV, cV, s2⟩
  · simp [htp] at h
  simp only [htp] at h
  rcases hwp : readWallPart f1 f3 s2 with _ | ⟨w0, wc, wu, wv, s3⟩
  · simp [hwp] at h
  simp only [hwp] at h
  rcases hlq : readLiquidPart f1 s3 with _ | ⟨lq, s4⟩
  · simp [hlq] at h
  simp only [hlq] at h
  rcases hwh : readWallHigh f3 w0 s4 with _ | ⟨wall2, s5⟩
  · simp [hwh] at h
  simp only [hwh] at h
  rcases hrl : readRLE f1 s5 with _ | ⟨rl, s6⟩
  · simp [hrl] at h
  simp only [hrl] at h
  injection h with h1
  simp only [Prod.mk.injEq] at h1
  obtain ⟨rfl, rfl, rfl⟩ := h1
  exact ⟨f1, f2, f3, s1, ty, uV, vV, cV, s2, w0, wc, wu, wv, s3, lq, s4, wall2, s5,
    rfl, htp, hwp, hlq, hwh, hrl, rfl⟩

/-- Claim C3 (counterexample): the tile record `[0x02, 0x00]` (active
flag set, type byte zero) decodes to a tile whose active flag is set
while its type field is 0, refuting `active ⇔ type ≠ 0`. -/
theorem c3_counterexample :
    ∃ t : Tile, Tile.load [2, 0] [false] = some (t, 0, []) ∧
      t.active = true ∧ t.type = 0 :=
  ⟨⟨0, 0, -1, -1, -1, -1, 0, 0, 0, 0, 1⟩, by decide, by decide, by decide⟩

/-- Claim C3 (amended): for every tile produced by the tile codec, the
active flag is set whenever the type field is nonzero (an inactive tile
always has type 0); the converse fails, since an active tile may decode
type 0. -/
theorem c3_amended (s : List Nat) (extra : List Bool) (t : Tile) (rle : Int)
    (rest : List Nat) (h : Tile.load s extra = some (t, rle, rest))
    (hty : t.type ≠ 0) : t.active = true := by
  obtain ⟨f1, f2, f3, s1, ty, uV, vV, cV, s2, w0, wc, wu, wv, s3, lq, s4, wall2, s5,
    hrf, htp, hwp, hlq, hwh, hrl, rfl⟩ := load_inv s extra t rle rest h
  by_cases hf : f1 &&& 2 = 0
  · rw [readTypePart_inactive f1 f3 extra s1 hf] at htp
    injection htp with h1
    simp only [Prod.mk.injEq] at h1
    obtain ⟨rfl, -⟩ := h1
    simp at hty
  · have h1 : mkFlags f1 f2 f3 &&& 1 = 1 := by rw [mkFlags_and_one, if_pos hf]
    show decide (mkFlags f1 f2 f3 &&& 1 ≠ 0) = true
    rw [h1]
    decide

theorem c3_amended_witness : Tile.active ⟨7, 0, -1, -1, -1, -1, 0, 0, 0, 0, 1⟩ = true :=
  c3_amended [2, 7] [false, false, false, false, false, false, false, false]
    ⟨7, 0, -1, -1, -1, -1, 0, 0, 0, 0, 1⟩ 0 [] (by decide) (by decide)

/-- Claim C6 (counterexample): the tile record `[0x18, 0x00]` (honey
selector with liquid byte zero) decodes to a tile with `liquid = 0` and
the honey flag set, refuting the implication that `liquid == 0` forces
both liquid flags clear. -/
theorem c6_counterexample :
    ∃ t : Tile, Tile.load [0x18, 0] [] = some (t, 0, []) ∧
      t.liquid = 0 ∧ t.honey = true :=
  ⟨⟨0, 0, -1, -1, -1, -1, 0, 0, 0, 0, 4⟩, by decide, by decide, by decide⟩

/-- Claim C6 (amended): for every tile produced by the tile codec, the
lava and honey flags are never both set; and whenever the
liquid-presence bits (`flags1 & 0x18`) are zero, the liquid field is 0
and both flags are clear.  (A present liquid byte may decode amount 0
while lava or honey is set, so `liquid == 0` alone does not imply the
flags are clear.) -/
theorem c6_amended (s : List Nat) (extra : List Bool) (t : Tile) (rle : Int)
    (rest : List Nat) (h : Tile.load s extra = some (t, rle, rest)) :
    (¬(t.lava = true ∧ t.honey = true)) ∧
    (∀ f1 f2 f3 r, readFlagsBytes s = some (f1, f2, f3, r) → f1 &&& 0x18 = 0 →
      t.liquid = 0 ∧ t.lava = false ∧ t.honey = false) := by
  obtain ⟨f1, f2, f3, s1, ty, uV, vV, cV, s2, w0, wc, wu, wv, s3, lq, s4, wall2, s5,
    hrf, htp, hwp, hlq, hwh, hrl, rfl⟩ := load_inv s extra t rle rest h
  constructor
  · rintro ⟨hl, hh⟩
    have hl2 : mkFlags f1 f2 f3 &&& 2 ≠ 0 := of_decide_eq_true hl
    have hh2 : mkFlags f1 f2 f3 &&& 4 ≠ 0 := of_decide_eq_true hh
    rw [mkFlags_and_two] at hl2
    rw [mkFlags_and_four] at hh2
    by_cases c1 : f1 &&& 0x18 = 0x10 <;> by_cases c2 : f1 &&& 0x18 = 0x18 <;>
      simp [c1, c2] at hl2 hh2
  · intro f1' f2' f3' r hrf' habs
    rw [hrf] at hrf'
    injection hrf' with h1
    simp only [Prod.mk.injEq] at h1
    obtain ⟨rfl, rfl, rfl, rfl⟩ := h1
    rw [readLiquidPart_absent f1 s3 habs] at hlq
    injection hlq with h2
    simp only [Prod.mk.injEq] at h2
    obtain ⟨rfl, rfl⟩ := h2
    refine ⟨rfl, ?_, ?_⟩
    · show decide (mkFlags f1 f2 f3 &&& 2 ≠ 0) = false
      rw [mkFlags_and_two, if_neg (by omega)]
      decide
    · show decide (mkFlags f1 f2 f3 &&& 4 ≠ 0) = false
      rw [mkFlags_and_four, if_neg (by omega)]
      decide

theorem c6_amended_witness :
    (¬((Tile.lava ⟨0, 0, -1, -1, -1, -1, 0, 0, 0, 0, 0⟩) = true ∧
       (Tile.honey ⟨0, 0, -1, -1, -1, -1, 0, 0, 0, 0, 0⟩) = true)) ∧
    (∀ f1 f2 f3 r, readFlagsBytes [0] = some (f1, f2, f3, r) → f1 &&& 0x18 = 0 →
      (Tile.liquid ⟨0, 0, -1, -1, -1, -1, 0, 0, 0, 0, 0⟩) = 0 ∧
      (Tile.lava ⟨0, 0, -1, -1, -1, -1, 0, 0, 0, 0, 0⟩) = false ∧
      (Tile.honey ⟨0, 0, -1, -1, -1, -1, 0, 0, 0, 0, 0⟩) = false) :=
  c6_amended [0] [] ⟨0, 0, -1, -1, -1, -1, 0, 0, 0, 0, 0⟩ 0 [] (by decide)

theorem readRLE_sel3 (f1 : Nat) (s : List Nat) (h : f1 >>> 6 = 3) :
    readRLE f1 s = some (0, s) := by
  unfold readRLE
  rw [h]

theorem readRLE_sel0 (f1 : Nat) (s : List Nat) (h : f1 >>> 6 = 0) :
    readRLE f1 s = some (0, s) := by
  unfold readRLE
  rw [h]

theorem and63_and (b m : Nat) (hm : 63 &&& m = m) : b &&& 63 &&& m = b &&& m := by
  rw [Nat.and_assoc, hm]

theorem readFlagsBytes_head (b : Nat) (t : List Nat) (hb : b < 256)
    (f1 f2 f3 : Nat) (r : List Nat)
    (h : readFlagsBytes (b :: t) = some (f1, f2, f3, r)) : f1 = b := by
  have hmb : b % 256 = b := Nat.mod_eq_of_lt hb
  by_cases h1 : b % 2 = 1
  · rcases t with _ | ⟨c, t2⟩
    · simp [readFlagsBytes, r8, hmb, h1] at h
    · by_cases h2 : c % 256 % 2 = 1
      · rcases t2 with _ | ⟨d, t3⟩
        · simp [readFlagsBytes, r8, hmb, h1, h2] at h
        · simp [readFlagsBytes, r8, hmb, h1, h2] at h
          obtain ⟨h3, -⟩ := h
          omega
      · simp [readFlagsBytes, r8, hmb, h1, h2] at h
        obtain ⟨h3, -⟩ := h
        omega
  · simp [readFlagsBytes, r8, hmb, h1] at h
    obtain ⟨h3, -⟩ := h
    omega

theorem readFlagsBytes_and63 (b : Nat) (t : List Nat) (hb : b < 256) :
    readFlagsBytes ((b &&& 63) :: t) =
      match readFlagsBytes (b :: t) with
      | none => none
      | some (_, f2, f3, r) => some (b &&& 63, f2, f3, r) := by
  have hb63 : b &&& 63 < 256 := lt_of_le_of_lt Nat.and_le_right (by norm_num)
  have h11 : (b &&& 63) % 2 = b % 2 := by
    rw [← Nat.and_one_is_mod, ← Nat.and_one_is_mod, and63_and b 1 (by decide)]
  by_cases h1 : b % 2 = 1
  · rcases t with _ | ⟨c, t2⟩
    · simp [readFlagsBytes, r8, h1, h11, Nat.mod_eq_of_lt hb, Nat.mod_eq_of_lt hb63]
    · by_cases h2 : c % 256 % 2 = 1
      · rcases t2 with _ | ⟨d, t3⟩ <;>
          simp [readFlagsBytes, r8, h1, h2, h11, Nat.mod_eq_of_lt hb,
            Nat.mod_eq_of_lt hb63]
      · simp [readFlagsBytes, r8, h1, h2, h11, Nat.mod_eq_of_lt hb,
          Nat.mod_eq_of_lt hb63]
  · simp [readFlagsBytes, r8, h1, h11, Nat.mod_eq_of_lt hb, Nat.mod_eq_of_lt hb63]

/-- Claim C10 (confirmed): for every tile record whose first flag byte
has both top bits set (`f1 >> 6 = 3`, the reserved RLE selector), the
tile codec behaves exactly as for selector 0: it reads no RLE count
bytes (the decode equals the decode of the same record with the top two
bits cleared) and returns run length 0. -/
theorem c10_reserved_selector (b : Nat) (t : List Nat) (extra : List Bool)
    (hb : b < 256) (hsel : b >>> 6 = 3) :
    Tile.load (b :: t) extra = Tile.load ((b &&& 63) :: t) extra ∧
    (∀ tl rle rest, Tile.load (b :: t) extra = some (tl, rle, rest) → rle = 0) := by
  have hb63 : b &&& 63 < 256 := lt_of_le_of_lt Nat.and_le_right (by norm_num)
  have hsel0 : (b &&& 63) >>> 6 = 0 := by
    rw [Nat.shiftRight_eq_div_pow]
    exact Nat.div_eq_of_lt (lt_of_le_of_lt Nat.and_le_right (by norm_num))
  have hTPa : ∀ f3 extra2 s, readTypePart (b &&& 63) f3 extra2 s = readTypePart b f3 extra2 s := by
    intro f3 extra2 s
    unfold readTypePart
    simp only [and63_and b 2 (by decide), and63_and b 32 (by decide)]
  have hWPa : ∀ f3 s, readWallPart (b &&& 63) f3 s = readWallPart b f3 s := by
    intro f3 s
    unfold readWallPart
    simp only [and63_and b 4 (by decide)]
  have hLQa : ∀ s, readLiquidPart (b &&& 63) s = readLiquidPart b s := by
    intro s
    unfold readLiquidPart
    simp only [and63_and b 24 (by decide)]
  have hMFa : ∀ f2 f3, mkFlags (b &&& 63) f2 f3 = mkFlags b f2 f3 := by
    intro f2 f3
    unfold mkFlags
    simp only [and63_and b 2 (by decide), and63_and b 24 (by decide)]
  have hRLEa : ∀ s, readRLE (b &&& 63) s = readRLE b s := by
    intro s
    rw [readRLE_sel0 _ s hsel0, readRLE_sel3 b s hsel]
  constructor
  · unfold Tile.load
    rw [readFlagsBytes_and63 b t hb]
    rcases hrf : readFlagsBytes (b :: t) with _ | ⟨f1, f2, f3, s1⟩
    · rfl
    · have hf1 : f1 = b := readFlagsBytes_head b t hb f1 f2 f3 s1 hrf
      subst hf1
      simp only [hTPa, hWPa, hLQa, hMFa, hRLEa]
  · intro tl rle rest h
    obtain ⟨f1, f2, f3, s1, ty, uV, vV, cV, s2, w0, wc, wu, wv, s3, lq, s4, wall2, s5,
      hrf, htp, hwp, hlq, hwh, hrl, rfl⟩ := load_inv (b :: t) extra tl rle rest h
    have hf1 : f1 = b := readFlagsBytes_head b t hb f1 f2 f3 s1 hrf
    subst hf1
    rw [readRLE_sel3 _ s5 hsel] at hrl
    injection hrl with hx
    simp only [Prod.mk.injEq] at hx
    exact hx.1.symm

theorem c10_witness :
    Tile.load [0xC0] [] = Tile.load [0xC0 &&& 63] [] ∧
    (∀ tl rle rest, Tile.load [0xC0] [] = some (tl, rle, rest) → rle = 0) :=
  c10_reserved_selector 0xC0 [] [] (by decide) (by decide)

/-- Claim C1 (counterexample): the bitmap decoder is not MSB-first.  On
the one-bit bitmap with byte `0x01` the decoder yields `true` for bit 0,
while the claimed MSB-first convention (first bit at mask `0x80`) yields
`false` there. -/
theorem c1_counterexample :
    (readBitmap 1 [1]).map Prod.fst = some [true] ∧ specBitMSB [1] 0 = false := by
  constructor
  · rfl
  · rfl

/-- Claim C2 (code bug): in a 1 by 2 world, the tiles section
`[0x40, 0x05]` (one inactive tile with RLE count 5) makes `loadTiles`
write the offsets 0 through 5 — offsets 2 through 5 lie at or beyond
`tilesWide * tilesHigh = 2` — and the load still returns successfully;
no `CorruptTileStream` error exists in the code. -/
theorem c2_out_of_bounds_write :
    ∃ g : Grid, loadTiles 1 2 [] 16 zeroGrid [0x40, 5] = some (g, [0, 1, 2, 3, 4, 5], []) ∧
      (5 ∈ [0, 1, 2, 3, 4, 5] ∧ 1 * 2 ≤ 5) :=
  ⟨_, rfl, by decide, by decide⟩

/-- Claim C4 (code bug): an entities section with one record whose kind
byte is 3 decodes to the empty entity list with no error: the `switch`
has no case for unknown kinds, so the loop silently continues with the
next record instead of failing with `UnknownEntityKind`. -/
theorem c4_unknown_kind_skipped :
    loadEntities [1, 0, 0, 0, 3] = some ([], []) := by
  rfl

theorem r32_drop (s : List Nat) (v : Int) (rest : List Nat)
    (h : r32 s = some (v, rest)) : rest = s.drop 4 := by
  rcases s with _ | ⟨a, _ | ⟨b, _ | ⟨c, _ | ⟨d, t⟩⟩⟩⟩ <;> simp [r32, r32n, r16n, r8] at h
  simp_all

/-- Claim C8 (confirmed): if the version word read first exceeds
`HighestVersion` the load terminates with the unsupported-version error,
and if it is below `MinimumVersion` with the version-too-old error; in
both cases the unread remainder is everything after the 4-byte version
word, so no further bytes are consumed. -/
theorem c8_version_gate (hi lo : Int) (s : List Nat) (v : Int) (rest : List Nat)
    (h : r32 s = some (v, rest)) :
    (v > hi → runPrologue hi lo s = .error (.unsupportedVersion v, s.drop 4)) ∧
    (¬v > hi → v < lo → runPrologue hi lo s = .error (.versionTooOld v, s.drop 4)) := by
  have hdrop := r32_drop s v rest h
  subst hdrop
  constructor
  · intro hgt
    unfold runPrologue
    simp only [h]
    rw [if_pos hgt]
  · intro hle hlt
    unfold runPrologue
    simp only [h]
    rw [if_neg hle, if_pos hlt]

theorem c8_version_gate_witness :
    (((300 : Int) > 299 → runPrologue 299 88 [44, 1, 0, 0, 7, 7] =
        .error (.unsupportedVersion 300, [7, 7])) ∧
     (¬(300 : Int) > 299 → (300 : Int) < 88 → runPrologue 299 88 [44, 1, 0, 0, 7, 7] =
        .error (.versionTooOld 300, [7, 7]))) ∧
    (((87 : Int) > 299 → runPrologue 299 88 [87, 0, 0, 0, 9] =
        .error (.unsupportedVersion 87, [9])) ∧
     (¬(87 : Int) > 299 → (87 : Int) < 88 → runPrologue 299 88 [87, 0, 0, 0, 9] =
        .error (.versionTooOld 87, [9]))) :=
  ⟨c8_version_gate 299 88 [44, 1, 0, 0, 7, 7] 300 [7, 7] (by decide),
   c8_version_gate 299 88 [87, 0, 0, 0, 9] 87 [9] (by decide)⟩

theorem r16n_encodeU16 (n : Nat) (r : List Nat) (hn : n < 65536) :
    r16n (encodeU16 n ++ r) = some (n, r) := by
  unfold encodeU16 r16n r8
  simp only [List.cons_append, List.nil_append, Option.some.injEq, Prod.mk.injEq]
  exact ⟨by omega, trivial⟩

theorem r16_encodeI16 (v : Int) (r : List Nat) (h1 : -32768 ≤ v) (h2 : v < 32768) :
    r16 (encodeI16 v ++ r) = some (v, r) := by
  unfold encodeI16 r16
  simp only [r16n_encodeU16 ((v % 65536).toNat) r (by omega), Option.some.injEq,
    Prod.mk.injEq]
  refine ⟨?_, trivial⟩
  unfold toI16
  split <;> omega

theorem r32n_encodeU32 (n : Nat) (r : List Nat) (hn : n < 4294967296) :
    r32n (encodeU32 n ++ r) = some (n, r) := by
  unfold encodeU32 r32n
  simp only [List.append_assoc,
    r16n_encodeU16 (n % 65536) (encodeU16 (n / 65536 % 65536) ++ r) (by omega),
    r16n_encodeU16 (n / 65536 % 65536) r (by omega),
    Option.some.injEq, Prod.mk.injEq]
  exact ⟨by omega, trivial⟩

theorem r32_encodeI32 (v : Int) (r : List Nat) (h1 : -2147483648 ≤ v)
    (h2 : v < 2147483648) :
    r32 (encodeI32 v ++ r) = some (v, r) := by
  unfold encodeI32 r32
  simp only [r32n_encodeU32 ((v % 4294967296).toNat) r (by omega), Option.some.injEq,
    Prod.mk.injEq]
  refine ⟨?_, trivial⟩
  unfold toI32
  split <;> omega

/-- Claim C7 (confirmed): decoding the chest item slots yields exactly
the slots whose stack prefix is positive, in their original order; a
slot with a non-positive stack consumes no bytes beyond its stack word
and contributes no item; each appended item's name and prefix are the
InfoDB lookups of the item id and prefix id read after the stack. -/
theorem c7_chest_items (items : Int → String) (prefixes : Nat → String)
    (slots : List SlotSpec) (rest : List Nat)
    (hv : ∀ sl ∈ slots, -32768 ≤ sl.stack ∧ sl.stack < 32768 ∧
      -2147483648 ≤ sl.itemId ∧ sl.itemId < 2147483648 ∧ sl.prefixId < 256) :
    readChestItems items prefixes slots.length (encodeSlots slots ++ rest) =
      some ((slots.filter (fun sl => decide (0 < sl.stack))).map
        (fun sl => ({ stack := sl.stack, name := items sl.itemId,
                      pfx := prefixes sl.prefixId } : ChestItem)), rest) := by
  induction slots with
  | nil => simp [encodeSlots, readChestItems]
  | cons sl tl ih =>
    obtain ⟨h1, h2, h3, h4, h5⟩ := hv sl (by simp)
    have htl := ih (fun x hx => hv x (by simp [hx]))
    show readChestItems items prefixes (tl.length + 1) _ = _
    unfold readChestItems
    by_cases hpos : 0 < sl.stack
    · have e1 : r16 (encodeI16 sl.stack ++ (encodeI32 sl.itemId ++
          sl.prefixId :: (encodeSlots tl ++ rest))) =
          some (sl.stack, encodeI32 sl.itemId ++
            sl.prefixId :: (encodeSlots tl ++ rest)) := r16_encodeI16 _ _ h1 h2
      have e2 : r32 (encodeI32 sl.itemId ++ sl.prefixId :: (encodeSlots tl ++ rest)) =
          some (sl.itemId, sl.prefixId :: (encodeSlots tl ++ rest)) :=
        r32_encodeI32 _ _ h3 h4
      have e3 : r8 (sl.prefixId :: (encodeSlots tl ++ rest)) =
          some (sl.prefixId, encodeSlots tl ++ rest) := by
        simp [r8, Nat.mod_eq_of_lt h5]
      rw [encodeSlots, encodeSlot, if_pos hpos]
      simp only [List.append_assoc]
      simp [e1, e2, e3, htl, hpos, List.filter_cons]
    · have e1 : r16 (encodeI16 sl.stack ++ (encodeSlots tl ++ rest)) =
          some (sl.stack, encodeSlots tl ++ rest) := r16_encodeI16 _ _ h1 h2
      rw [encodeSlots, encodeSlot, if_neg hpos]
      simp only [List.append_assoc]
      simp [e1, htl, hpos, List.filter_cons]

theorem c7_chest_items_witness :
    readChestItems (fun _ => "item") (fun _ => "pfx") 3
        (encodeSlots [⟨2, 5, 1⟩, ⟨0, 0, 0⟩, ⟨7, 9, 3⟩] ++ [42]) =
      some ([⟨2, "item", "pfx"⟩, ⟨7, "item", "pfx"⟩], [42]) := by
  have h := c7_chest_items (fun _ => "item") (fun _ => "pfx")
    [⟨2, 5, 1⟩, ⟨0, 0, 0⟩, ⟨7, 9, 3⟩] [42] (by decide)
  simpa using h

theorem readBitmapAux_start (m : Nat) (b : Nat) (t : List Nat) (bits : Nat)
    (hb : b < 256) :
    readBitmapAux (m + 1) (b :: t) 128 bits =
      match readBitmapAux m t 1 b with
      | none => none
      | some (rest, s2) => some ((decide (b &&& 1 ≠ 0)) :: rest, s2) := by
  rw [readBitmapAux]
  rw [if_pos rfl]
  simp only [r8, Nat.mod_eq_of_lt hb]

theorem readBitmapAux_shift (m mask mask2 b : Nat) (s : List Nat)
    (hm : ¬(mask = 128)) (h2 : (mask <<< 1) % 256 = mask2) :
    readBitmapAux (m + 1) s mask b =
      match readBitmapAux m s mask2 b with
      | none => none
      | some (rest, s2) => some ((decide (b &&& mask2 ≠ 0)) :: rest, s2) := by
  subst h2
  rw [readBitmapAux]
  rw [if_neg hm]

theorem readBitmapAux_retire (m b b2 : Nat) (s : List Nat) :
    readBitmapAux m s 128 b = readBitmapAux m s 128 b2 := by
  cases m <;> rfl

theorem readBitmap_chunk (m : Nat) (b : Nat) (s : List Nat) (hb : b < 256) :
    readBitmap (m + 8) (b :: s) =
      match readBitmap m s with
      | none => none
      | some (v, r) => some (byteBitsLSB b ++ v, r) := by
  show readBitmapAux (m + 8) (b :: s) 128 0 = _
  rw [show m + 8 = (m + 7) + 1 from rfl, readBitmapAux_start (m + 7) b s 0 hb]
  rw [show m + 7 = (m + 6) + 1 from rfl,
    readBitmapAux_shift (m + 6) 1 2 b s (by decide) (by decide)]
  rw [show m + 6 = (m + 5) + 1 from rfl,
    readBitmapAux_shift (m + 5) 2 4 b s (by decide) (by decide)]
  rw [show m + 5 = (m + 4) + 1 from rfl,
    readBitmapAux_shift (m + 4) 4 8 b s (by decide) (by decide)]
  rw [show m + 4 = (m + 3) + 1 from rfl,
    readBitmapAux_shift (m + 3) 8 16 b s (by decide) (by decide)]
  rw [show m + 3 = (m + 2) + 1 from rfl,
    readBitmapAux_shift (m + 2) 16 32 b s (by decide) (by decide)]
  rw [show m + 2 = (m + 1) + 1 from rfl,
    readBitmapAux_shift (m + 1) 32 64 b s (by decide) (by decide)]
  rw [show m + 1 = m + 1 from rfl,
    readBitmapAux_shift m 64 128 b s (by decide) (by decide)]
  rw [readBitmapAux_retire m b 0 s]
  rcases h : readBitmapAux m s 128 0 with _ | ⟨v, r⟩ <;>
    simp [readBitmap, h, byteBitsLSB]

theorem readBitmap_small (n b : Nat) (s : List Nat) (hb : b < 256)
    (h1 : 1 ≤ n) (h8 : n ≤ 8) :
    readBitmap n (b :: s) = some ((byteBitsLSB b).take n, s) := by
  interval_cases n <;>
    simp [readBitmap, readBitmapAux, r8, Nat.mod_eq_of_lt hb, byteBitsLSB]

theorem byteBits_getD (b i : Nat) (hi : i < 8) :
    (byteBitsLSB b).getD i false = decide (b &&& (1 <<< i) ≠ 0) := by
  interval_cases i <;> simp [byteBitsLSB]

/-- Claim C1 (amended): for every bit-packed bitmap of `n` bits read by
the decoder, bit `i` of the decoded boolean vector is taken LSB-first
within each byte: bit `i` is bit `i % 8` (mask `1 <<< (i % 8)`, the
first bit of each byte coming from mask `0x01`) of byte `i / 8`, the
walking mask being left-shifted for each subsequent bit and a fresh byte
read when the mask has returned to `0x80`. -/
theorem c1_amended (bytes : List Nat) (n : Nat)
    (hb : ∀ x ∈ bytes, x < 256) (hn : n ≤ 8 * bytes.length) :
    ∃ v rS, readBitmap n bytes = some (v, rS) ∧ v.length = n ∧
      ∀ i, i < n → v.getD i false =
        decide ((bytes.getD (i / 8) 0) &&& (1 <<< (i % 8)) ≠ 0) := by
  induction bytes generalizing n with
  | nil =>
    have hz : n = 0 := by simpa using hn
    subst hz
    exact ⟨[], [], rfl, rfl, by omega⟩
  | cons b t ih =>
    rcases Nat.eq_zero_or_pos n with rfl | hpos
    · exact ⟨[], b :: t, rfl, rfl, by omega⟩
    have hb0 : b < 256 := hb b (by simp)
    by_cases h8 : n ≤ 8
    · refine ⟨(byteBitsLSB b).take n, t, readBitmap_small n b t hb0 hpos h8, ?_, ?_⟩
      · simp [byteBitsLSB]
        omega
      · intro i hi
        have hi8 : i < 8 := by omega
        have hdiv : i / 8 = 0 := by omega
        have hmod : i % 8 = i := by omega
        rw [hdiv, hmod]
        rw [List.getD_eq_getElem?_getD, List.getElem?_take, if_pos hi,
          ← List.getD_eq_getElem?_getD]
        exact byteBits_getD b i hi8
    · push_neg at h8
      have hrw := readBitmap_chunk (n - 8) b t hb0
      rw [show (n - 8) + 8 = n from by omega] at hrw
      have hn2 : n - 8 ≤ 8 * t.length := by
        simp only [List.length_cons] at hn
        omega
      obtain ⟨v, r, hv, hlen, hbits⟩ := ih (n - 8) (fun x hx => hb x (List.mem_cons_of_mem b hx)) hn2
      rw [hv] at hrw
      refine ⟨byteBitsLSB b ++ v, r, by rw [hrw], ?_, ?_⟩
      · simp [byteBitsLSB, hlen]
        omega
      · intro i hi
        have hlb : (byteBitsLSB b).length = 8 := by simp [byteBitsLSB]
        by_cases hi8 : i < 8
        · have hdiv : i / 8 = 0 := by omega
          have hmod : i % 8 = i := by omega
          rw [hdiv, hmod]
          rw [List.getD_eq_getElem?_getD, List.getElem?_append, hlb, if_pos hi8,
            ← List.getD_eq_getElem?_getD]
          exact byteBits_getD b i hi8
        · push_neg at hi8
          have hdiv : i / 8 = (i - 8) / 8 + 1 := by omega
          have hmod : i % 8 = (i - 8) % 8 := by omega
          rw [hdiv, hmod]
          rw [List.getD_eq_getElem?_getD, List.getElem?_append, hlb,
            if_neg (by omega), ← List.getD_eq_getElem?_getD]
          have hx := hbits (i - 8) (by omega)
          simpa using hx

theorem c1_amended_witness :
    ∃ v rS, readBitmap 10 [0x81, 0x01] = some (v, rS) ∧ v.length = 10 ∧
      ∀ i, i < 10 → v.getD i false =
        decide (([0x81, 0x01].getD (i / 8) 0) &&& (1 <<< (i % 8)) ≠ 0) :=
  c1_amended [0x81, 0x01] 10 (by decide) (by decide)

theorem or_and_self_512 (x : Nat) : (x ||| 512) &&& 512 = 512 := by
  apply Nat.eq_of_testBit_eq
  intro i
  simp only [Nat.testBit_and, Nat.testBit_or]
  cases hx : x.testBit i <;> simp

theorem setSeen_true_seen (t : Tile) : (Tile.setSeen true t).seen = true := by
  unfold Tile.setSeen Tile.seen
  simp [or_and_self_512]

theorem foldl_gridSetSeen_not_mem (l : List Nat) (g : Grid) (o : Nat) (ho : o ∉ l) :
    (l.foldl (fun acc oo => gridSetSeen oo true acc) g) o = g o := by
  induction l generalizing g with
  | nil => rfl
  | cons a tl ih =>
    simp only [List.foldl_cons]
    rw [ih _ (fun hmem => ho (List.mem_cons_of_mem a hmem))]
    unfold gridSetSeen
    rw [if_neg (by intro he; subst he; exact ho (List.mem_cons_self o tl))]

theorem foldl_gridSetSeen_seen (l : List Nat) (g : Grid) (o : Nat) (ho : o ∈ l) :
    ((l.foldl (fun acc oo => gridSetSeen oo true acc) g) o).seen = true := by
  induction l generalizing g with
  | nil => cases ho
  | cons a tl ih =>
    simp only [List.foldl_cons]
    by_cases ht : o ∈ tl
    · exact ih _ ht
    · have hoa : o = a := by
        rcases List.mem_cons.mp ho with h | h
        · exact h
        · exact absurd h ht
      subst hoa
      rw [foldl_gridSetSeen_not_mem tl _ o ht]
      unfold gridSetSeen
      rw [if_pos rfl]
      exact setSeen_true_seen _

theorem markAllSeen_seen (wide high : Nat) (g : Grid) (o : Nat)
    (ho : o < wide * high) :
    ((markAllSeen wide high g) o).seen = true := by
  unfold markAllSeen
  refine foldl_gridSetSeen_seen _ g o ?_
  simp only [List.mem_range]
  rw [Nat.mul_comm]
  exact ho

/-- Claim C5 (confirmed): when neither the GUID-derived companion map
path nor the worldID-derived path exists, the player-map overlay sets
the seen flag of every tile of the `tilesWide * tilesHigh` grid and
returns successfully without emitting an error. -/
theorem c5_missing_map (hasGuid : Bool) (wide high : Nat)
    (inflate : List Nat → List Nat) (fuel : Nat) (g : Grid) (mapFile : List Nat) :
    (loadPlayer hasGuid false false wide high inflate fuel g mapFile).status = .ok ∧
    ∀ o, o < wide * high →
      ((loadPlayer hasGuid false false wide high inflate fuel g mapFile).grid o).seen
        = true := by
  unfold loadPlayer
  simp only [Bool.and_false, Bool.false_eq_true, if_false]
  exact ⟨trivial, fun o ho => markAllSeen_seen wide high g o ho⟩

theorem c5_missing_map_witness :
    (loadPlayer true false false 2 3 id 5 zeroGrid [9, 9]).status = .ok ∧
    ((loadPlayer true false false 2 3 id 5 zeroGrid [9, 9]).grid 4).seen = true :=
  ⟨(c5_missing_map true 2 3 id 5 zeroGrid [9, 9]).1,
   (c5_missing_map true 2 3 id 5 zeroGrid [9, 9]).2 4 (by decide)⟩

theorem agreeExceptSeen_refl (t : Tile) : agreeExceptSeen t t :=
  ⟨rfl, rfl, rfl, rfl, rfl, rfl, rfl, rfl, rfl, rfl, fun _ _ _ => rfl⟩

theorem agreeExceptSeen_trans {a b c : Tile} (h1 : agreeExceptSeen a b)
    (h2 : agreeExceptSeen b c) : agreeExceptSeen a c := by
  obtain ⟨a1, a2, a3, a4, a5, a6, a7, a8, a9, a10, a11⟩ := h1
  obtain ⟨b1, b2, b3, b4, b5, b6, b7, b8, b9, b10, b11⟩ := h2
  refine ⟨b1.trans a1, b2.trans a2, b3.trans a3, b4.trans a4, b5.trans a5,
    b6.trans a6, b7.trans a7, b8.trans a8, b9.trans a9, b10.trans a10, ?_⟩
  intro i h32 h9
  rw [b11 i h32 h9, a11 i h32 h9]

theorem setSeen_agree (b : Bool) (t : Tile) : agreeExceptSeen t (Tile.setSeen b t) := by
  cases b
  · show agreeExceptSeen t { t with flags := t.flags &&& 0xFFFFFDFF }
    refine ⟨rfl, rfl, rfl, rfl, rfl, rfl, rfl, rfl, rfl, rfl, ?_⟩
    intro i h32 h9
    simp only [Nat.testBit_and]
    have hm : Nat.testBit 0xFFFFFDFF i = true := by
      have hd : ∀ j, j < 32 → j ≠ 9 → Nat.testBit 0xFFFFFDFF j = true := by decide
      exact hd i h32 h9
    rw [hm, Bool.and_true]
  · show agreeExceptSeen t { t with flags := t.flags ||| 0x200 }
    refine ⟨rfl, rfl, rfl, rfl, rfl, rfl, rfl, rfl, rfl, rfl, ?_⟩
    intro i h32 h9
    simp only [Nat.testBit_or]
    have hm : Nat.testBit 512 i = false := by
      have h512 : (512 : Nat) = 2 ^ 9 := by norm_num
      rw [h512]
      exact Nat.testBit_two_pow_of_ne (fun he => h9 he.symm)
    rw [hm, Bool.or_false]

theorem gridAgree_refl (g : Grid) : gridAgree g g := fun o => agreeExceptSeen_refl (g o)

theorem gridAgree_trans {a b c : Grid} (h1 : gridAgree a b) (h2 : gridAgree b c) :
    gridAgree a c := fun o => agreeExceptSeen_trans (h1 o) (h2 o)

theorem gridSetSeen_agree (o : Nat) (b : Bool) (g : Grid) :
    gridAgree g (gridSetSeen o b g) := by
  intro i
  unfold gridSetSeen
  by_cases hio : i = o
  · rw [if_pos hio]
    exact setSeen_agree b (g i)
  · rw [if_neg hio]
    exact agreeExceptSeen_refl (g i)

theorem foldl_gridSetSeen_agree (l : List Nat) (g : Grid) :
    gridAgree g (l.foldl (fun acc oo => gridSetSeen oo true acc) g) := by
  induction l generalizing g with
  | nil => exact gridAgree_refl g
  | cons a tl ih =>
    simp only [List.foldl_cons]
    exact gridAgree_trans (gridSetSeen_agree a true g) (ih _)

theorem markAllSeen_agree (wide high : Nat) (g : Grid) :
    gridAgree g (markAllSeen wide high g) := foldl_gridSetSeen_agree _ g

theorem seenRunRows_agree (wide : Nat) (b : Bool) (k : Nat) (y : Int) (offset : Nat)
    (g : Grid) : gridAgree g (seenRunRows wide b k y offset g).2.2 := by
  induction k generalizing y offset g with
  | zero => exact gridAgree_refl g
  | succ k ih =>
    exact gridAgree_trans (gridSetSeen_agree (offset + wide) b g) (ih _ _ _)

theorem lp1Inner_agree (wide high : Nat) (version : Int) :
    ∀ (fuel : Nat) (y : Int) (offset : Nat) (g : Grid) (s : List Nat),
      gridAgree g (lp1Inner wide high version fuel y offset g s).grid := by
  intro fuel
  induction fuel with
  | zero => intro y offset g s; exact gridAgree_refl g
  | succ fuel ih =>
    intro y offset g s
    rw [lp1Inner]
    split
    · rcases h8 : r8 s with _ | ⟨p, s1⟩
      · simp only [h8]; exact gridAgree_refl g
      simp only [h8]
      split
      · rcases hsk : skipBytes (if version ≤ 77 then 1 else 2) s1 with _ | s2
        · simp only [hsk]; exact gridAgree_refl g
        simp only [hsk]
        rcases hsk2 : skipBytes (if version ≥ 50 then 3 else 2) s2 with _ | s3
        · simp only [hsk2]; exact gridAgree_refl g
        simp only [hsk2]
        rcases h16 : r16 s3 with _ | ⟨rle, s4⟩
        · simp only [h16]
          exact gridSetSeen_agree offset true g
        simp only [h16]
        refine gridAgree_trans (gridSetSeen_agree offset true g) ?_
        refine gridAgree_trans (seenRunRows_agree wide true rle.toNat y offset _) ?_
        exact ih _ _ _ _
      · rcases h16 : r16 s1 with _ | ⟨rle, s2⟩
        · simp only [h16]; exact gridAgree_refl g
        simp only [h16]
        refine gridAgree_trans (seenRunRows_agree wide false rle.toNat y offset g) ?_
        exact ih _ _ _ _
    · exact gridAgree_refl g

theorem lp1Cols_agree (wide high : Nat) (version : Int) (fuel : Nat) :
    ∀ (cols x : Nat) (g : Grid) (s : List Nat),
      gridAgree g (lp1Cols wide high version fuel cols x g s).grid := by
  intro cols
  induction cols with
  | zero => intro x g s; exact gridAgree_refl g
  | succ cols ih =>
    intro x g s
    rw [lp1Cols]
    rcases hin : lp1Inner wide high version fuel 0 x g s with ⟨g1, s1, st⟩
    have hagree : gridAgree g g1 := by
      have hx := lp1Inner_agree wide high version fuel 0 x g s
      rw [hin] at hx
      exact hx
    cases st
    · simp only [hin]
      exact gridAgree_trans hagree (ih _ _ _)
    · simp only [hin]
      exact hagree
    · simp only [hin]
      exact hagree

theorem loadPlayer1_agree (wide high : Nat) (version : Int) (fuel : Nat) (g : Grid)
    (s : List Nat) : gridAgree g (loadPlayer1 wide high version fuel g s).grid := by
  unfold loadPlayer1
  rcases h1 : rs s with _ | ⟨nm, s1⟩
  · exact gridAgree_refl g
  simp only [h1]
  rcases h2 : r32 s1 with _ | ⟨a, s2⟩
  · simp only [h2]; exact gridAgree_refl g
  simp only [h2]
  rcases h3 : r32 s2 with _ | ⟨b2, s3⟩
  · simp only [h3]; exact gridAgree_refl g
  simp only [h3]
  rcases h4 : r32 s3 with _ | ⟨c, s4⟩
  · simp only [h4]; exact gridAgree_refl g
  simp only [h4]
  exact lp1Cols_agree wide high version fuel wide 0 g s4

theorem seenRunCells_agree (b wl : Bool) :
    ∀ (k x offset : Nat) (g : Grid) (s : List Nat) (x1 off1 : Nat) (g2 : Grid)
      (s2 : List Nat),
      seenRunCells b wl k x offset g s = some (x1, off1, g2, s2) → gridAgree g g2 := by
  intro k
  induction k with
  | zero =>
    intro x offset g s x1 off1 g2 s2 h
    unfold seenRunCells at h
    injection h with h1
    simp only [Prod.mk.injEq] at h1
    obtain ⟨-, -, hg, -⟩ := h1
    exact hg ▸ gridAgree_refl g
  | succ k ih =>
    intro x offset g s x1 off1 g2 s2 h
    rw [seenRunCells] at h
    split at h
    · rcases h8 : r8 s with _ | ⟨c, s3⟩
      · simp only [h8] at h
        exact Option.noConfusion h
      · simp only [h8] at h
        exact gridAgree_trans (gridSetSeen_agree (offset + 1) b g)
          (ih _ _ _ _ _ _ _ _ h)
    · exact gridAgree_trans (gridSetSeen_agree (offset + 1) b g)
        (ih _ _ _ _ _ _ _ _ h)

theorem lp2Inner_agree :
    ∀ (fuel wide x offset : Nat) (g : Grid) (s : List Nat),
      gridAgree g (lp2Inner fuel wide x offset g s).1.grid := by
  intro fuel
  induction fuel with
  | zero => intro wide x offset g s; exact gridAgree_refl g
  | succ fuel ih =>
    intro wide x offset g s
    rw [lp2Inner]
    split
    · rcases h8 : r8 s with _ | ⟨flagsB, s1⟩
      · simp only [h8]; exact gridAgree_refl g
      simp only [h8]
      rcases hc : (if flagsB &&& 1 ≠ 0 then (r8 s1).map Prod.snd else some s1)
        with _ | s2
      · simp only [hc]; exact gridAgree_refl g
      simp only [hc]
      rcases ht : (if (flagsB >>> 1) &&& 7 = 1 ∨ (flagsB >>> 1) &&& 7 = 2 ∨
          (flagsB >>> 1) &&& 7 = 7 then
          if flagsB &&& 16 ≠ 0 then (r16n s2).map Prod.snd
          else (r8 s2).map Prod.snd
        else some s2) with _ | s3
      · simp only [ht]; exact gridAgree_refl g
      simp only [ht]
      rcases hl : (if flagsB &&& 32 ≠ 0 then r8 s3 else some (255, s3))
        with _ | ⟨light, s4⟩
      · simp only [hl]; exact gridAgree_refl g
      simp only [hl]
      rcases hr : (match (flagsB >>> 6) &&& 3 with
          | 1 =>
            match r8 s4 with
            | none => none
            | some (b, s5) => some ((b : Int), s5)
          | 2 => r16 s4
          | _ => some ((0 : Int), s4)) with _ | ⟨rle, s5⟩
      · simp only [hr]; exact gridAgree_refl g
      simp only [hr]
      split
      · rcases hrun : seenRunCells true (light ≠ 255) rle.toNat x offset
            (gridSetSeen offset true g) s5 with _ | ⟨x1, off1, g2, s6⟩
        · simp only [hrun]
          exact gridSetSeen_agree offset true g
        simp only [hrun]
        refine gridAgree_trans (gridSetSeen_agree offset true g) ?_
        refine gridAgree_trans (seenRunCells_agree _ _ _ _ _ _ _ _ _ _ _ hrun) ?_
        exact ih _ _ _ _ _
      · rcases hrun : seenRunCells false false rle.toNat x offset
            (gridSetSeen offset false g) s5 with _ | ⟨x1, off1, g2, s6⟩
        · simp only [hrun]
          exact gridSetSeen_agree offset false g
        simp only [hrun]
        refine gridAgree_trans (gridSetSeen_agree offset false g) ?_
        refine gridAgree_trans (seenRunCells_agree _ _ _ _ _ _ _ _ _ _ _ hrun) ?_
        exact ih _ _ _ _ _
    · exact gridAgree_refl g

theorem lp2Rows_agree (wide fuel : Nat) :
    ∀ (rows offset : Nat) (g : Grid) (s : List Nat),
      gridAgree g (lp2Rows wide fuel rows offset g s).grid := by
  intro rows
  induction rows with
  | zero => intro offset g s; exact gridAgree_refl g
  | succ rows ih =>
    intro offset g s
    rw [lp2Rows]
    rcases hin : lp2Inner fuel wide 0 offset g s with ⟨⟨g1, s1, st⟩, off1⟩
    have hagree : gridAgree g g1 := by
      have hx := lp2Inner_agree fuel wide 0 offset g s
      rw [hin] at hx
      exact hx
    cases st
    · simp only [hin]
      exact gridAgree_trans hagree (ih _ _ _)
    · simp only [hin]
      exact hagree
    · simp only [hin]
      exact hagree

theorem loadPlayer2_agree (wide high : Nat) (version : Int)
    (inflate : List Nat → List Nat) (fuel : Nat) (g : Grid) (s : List Nat) :
    gridAgree g (loadPlayer2 wide high version inflate fuel g s).grid := by
  unfold loadPlayer2
  rcases hm : ((if version ≥ 135 then
      match takeBytes 7 s with
      | none => .error (s, PStatus.eof)
      | some (magic, s1) =>
        if magic ≠ relogicMagic then .error (s1, .errored)
        else
          match r8 s1 with
          | none => .error (s1, .eof)
          | some (ty, s2) =>
            if ty ≠ 1 then .error (s2, .errored)
            else
              match skipBytes (4 + 8) s2 with
              | none => .error (s2, .eof)
              | some s3 => .ok s3
    else .ok s) : Except (List Nat × PStatus) (List Nat)) with ⟨s1, st⟩ | s1
  · simp only [hm]; exact gridAgree_refl g
  simp only [hm]
  rcases h1 : rs s1 with _ | ⟨nm, s2⟩
  · exact gridAgree_refl g
  simp only [h1]
  rcases h2 : r32 s2 with _ | ⟨a, s3⟩
  · simp only [h2]; exact gridAgree_refl g
  simp only [h2]
  rcases h3 : r32 s3 with _ | ⟨b2, s4⟩
  · simp only [h3]; exact gridAgree_refl g
  simp only [h3]
  rcases h4 : r32 s4 with _ | ⟨c, s5⟩
  · simp only [h4]; exact gridAgree_refl g
  simp only [h4]
  rcases h5 : r16 s5 with _ | ⟨numTiles, s6⟩
  · simp only [h5]; exact gridAgree_refl g
  simp only [h5]
  rcases h6 : r16 s6 with _ | ⟨numWalls, s7⟩
  · simp only [h6]; exact gridAgree_refl g
  simp only [h6]
  rcases h7 : skipBytes 8 s7 with _ | s8
  · simp only [h7]; exact gridAgree_refl g
  simp only [h7]
  rcases h8 : readBitmap numTiles.toNat s8 with _ | ⟨tilePresent, s9⟩
  · simp only [h8]; exact gridAgree_refl g
  simp only [h8]
  rcases h9 : readBitmap numWalls.toNat s9 with _ | ⟨wallPresent, s10⟩
  · simp only [h9]; exact gridAgree_refl g
  simp only [h9]
  rcases h10 : skipBytes (tilePresent.count true) s10 with _ | s11
  · simp only [h10]; exact gridAgree_refl g
  simp only [h10]
  rcases h11 : skipBytes (wallPresent.count true) s11 with _ | s12
  · simp only [h11]; exact gridAgree_refl g
  simp only [h11]
  exact lp2Rows_agree wide fuel high 0 g _

/-- Claim C9 (confirmed): the player-map overlay — the v1 decoder, the
v2 decoder, and the dispatching `loadPlayer` including its missing-file
fallback — modifies only the seen flag bit (`0x200`) of tiles: for every
tile, every field and every flag bit other than bit 9 has the same value
after the overlay as before it. -/
theorem c9_overlay_only_seen (hasGuid guidExists worldIdExists : Bool)
    (wide high : Nat) (version : Int) (inflate : List Nat → List Nat) (fuel : Nat)
    (g : Grid) (s mapFile : List Nat) :
    gridAgree g (loadPlayer1 wide high version fuel g s).grid ∧
    gridAgree g (loadPlayer2 wide high version inflate fuel g s).grid ∧
    gridAgree g (loadPlayer hasGuid guidExists worldIdExists wide high inflate fuel
      g mapFile).grid := by
  refine ⟨loadPlayer1_agree wide high version fuel g s,
    loadPlayer2_agree wide high version inflate fuel g s, ?_⟩
  unfold loadPlayer
  split
  · rcases h1 : r32 mapFile with _ | ⟨ver, s1⟩
    · exact gridAgree_refl g
    simp only [h1]
    split
    · exact loadPlayer1_agree wide high ver fuel g s1
    · exact loadPlayer2_agree wide high ver inflate fuel g s1
  split
  · rcases h1 : r32 mapFile with _ | ⟨ver, s1⟩
    · exact gridAgree_refl g
    simp only [h1]
    split
    · exact loadPlayer1_agree wide high ver fuel g s1
    · exact loadPlayer2_agree wide high ver inflate fuel g s1
  · exact markAllSeen_agree wide high g

end TerraFirma
